import Mathlib

/-!
Verification of the esp-signalr client core against its specification.

The definitions below are a shallow embedding of the C++ sources:
  * `src/src/adapters/esp32_websocket_client.cpp` (transport adapter:
    frame reassembly, bounded inbound queue, pending-receive slot,
    delivery via short-lived executor tasks),
  * `src/src/hub_connection_impl.cpp` (reconnect decision, backoff
    delay lookup, keepalive timer),
  * `src/src/signalr_client_config.cpp` (configuration defaults),
  * `src/managed_components/.../signalrclient/negotiate.cpp`
    (negotiate response parsing),
  * `src/src/json_helpers.cpp` (record separator, base64Encode),
  * `src/src/signalr_default_scheduler.cpp` (the `timer` helper).

Byte strings are modelled as `List Nat`, mutexes disappear (each C++
critical section becomes one atomic Lean state transformation, in the
same lock order as the source), FreeRTOS task/semaphore outcomes become
explicit boolean parameters, and callbacks become opaque identifiers
whose invocations are recorded as events.
-/

/-- Embedding of `char record_separator = '\x1e';` from json_helpers.cpp,
line 11: the initial (and, as proved below, permanent) value of the
mutable global, as a byte. -/
def record_separator : Nat := 30

/-- Embedding of `constexpr size_t MAX_MESSAGE_QUEUE_SIZE = 20;` from
esp32_websocket_client.cpp (default, no Kconfig override). -/
def MAX_MESSAGE_QUEUE_SIZE : Nat := 20

/-- Embedding of `std::string::find('\x1e')` on the receive buffer:
index of the first record separator, `none` for `npos`. -/
def findSep : List Nat → Option Nat
  | [] => none
  | c :: rest => if c = 30 then some 0 else (findSep rest).map (· + 1)

theorem findSep_nil : findSep [] = none := rfl

theorem findSep_cons_sep (rest : List Nat) : findSep (30 :: rest) = some 0 := by
  simp [findSep]

theorem findSep_cons_ne (c : Nat) (rest : List Nat) (h : c ≠ 30) :
    findSep (c :: rest) = (findSep rest).map (· + 1) := by
  simp [findSep, h]

/-- Helper recursion: if findSep returns an index, the list is nonempty
and the index is small enough that dropping past it shrinks the list. -/
theorem findSep_lt_length (buf : List Nat) (p : Nat) (h : findSep buf = some p) :
    p < buf.length := by
  induction buf generalizing p with
  | nil => simp [findSep] at h
  | cons c rest ih =>
    by_cases hc : c = 30
    · subst hc
      rw [findSep_cons_sep] at h
      cases h
      simp
    · rw [findSep_cons_ne c rest hc] at h
      cases hq : findSep rest with
      | none => rw [hq] at h; simp at h
      | some q =>
        rw [hq] at h
        simp at h
        subst h
        have := ih q hq
        simpa using Nat.succ_lt_succ this

/-- Embedding of the `while`-loop body of
`esp32_websocket_client::handle_data` stripped of the queue: repeatedly
find the first 0x1E, cut the message before it, drop the separator, and
continue on the rest.  Returns the extracted frames in order together
with the residual buffer (the bytes after the last separator). -/
def extractFrames (buf : List Nat) : List (List Nat) × List Nat :=
  match h : findSep buf with
  | none => ([], buf)
  | some p =>
    let rest := buf.drop (p + 1)
    have : rest.length < buf.length := by
      have hp := findSep_lt_length buf p h
      have hpos : 0 < buf.length := Nat.lt_of_le_of_lt (Nat.zero_le p) hp
      simpa [rest] using Nat.sub_lt hpos (Nat.succ_pos p)
    let res := extractFrames rest
    (buf.take p :: res.1, res.2)
termination_by buf.length

/-- Proof-oriented reformulation of the frame scanner: walk the buffer
byte by byte, accumulating the current partial frame. -/
def scanFrames (acc : List Nat) : List Nat → List (List Nat) × List Nat
  | [] => ([], acc)
  | c :: rest =>
    if c = 30 then
      let res := scanFrames [] rest
      (acc :: res.1, res.2)
    else scanFrames (acc ++ [c]) rest

theorem scanFrames_nil (acc : List Nat) : scanFrames acc [] = ([], acc) := rfl

theorem scanFrames_cons_sep (acc rest : List Nat) :
    scanFrames acc (30 :: rest) =
      (acc :: (scanFrames [] rest).1, (scanFrames [] rest).2) := by
  simp [scanFrames]

theorem scanFrames_cons_ne (acc : List Nat) (c : Nat) (rest : List Nat) (h : c ≠ 30) :
    scanFrames acc (c :: rest) = scanFrames (acc ++ [c]) rest := by
  simp [scanFrames, h]

theorem scanFrames_none (buf : List Nat) :
    ∀ acc, findSep buf = none → scanFrames acc buf = ([], acc ++ buf) := by
  induction buf with
  | nil => intro acc _; simp [scanFrames_nil]
  | cons c rest ih =>
    intro acc h
    by_cases hc : c = 30
    · subst hc; rw [findSep_cons_sep] at h; cases h
    · rw [findSep_cons_ne c rest hc] at h
      cases hq : findSep rest with
      | none =>
        rw [scanFrames_cons_ne acc c rest hc, ih (acc ++ [c]) hq]
        simp
      | some q => rw [hq] at h; simp at h

theorem scanFrames_some (buf : List Nat) :
    ∀ acc p, findSep buf = some p →
      scanFrames acc buf =
        ((acc ++ buf.take p) :: (scanFrames [] (buf.drop (p + 1))).1,
          (scanFrames [] (buf.drop (p + 1))).2) := by
  induction buf with
  | nil => intro acc p h; simp [findSep] at h
  | cons c rest ih =>
    intro acc p h
    by_cases hc : c = 30
    · subst hc
      rw [findSep_cons_sep] at h
      cases h
      rw [scanFrames_cons_sep]
      simp
    · rw [findSep_cons_ne c rest hc] at h
      cases hq : findSep rest with
      | none => rw [hq] at h; simp at h
      | some q =>
        rw [hq] at h
        simp at h
        subst h
        rw [scanFrames_cons_ne acc c rest hc, ih (acc ++ [c]) q hq]
        simp

theorem extractFrames_none (buf : List Nat) (h : findSep buf = none) :
    extractFrames buf = ([], buf) := by
  conv_lhs => unfold extractFrames
  split
  · rfl
  · next p hp => rw [h] at hp; cases hp

theorem extractFrames_some (buf : List Nat) (p : Nat) (h : findSep buf = some p) :
    extractFrames buf =
      (buf.take p :: (extractFrames (buf.drop (p + 1))).1,
        (extractFrames (buf.drop (p + 1))).2) := by
  conv_lhs => unfold extractFrames
  split
  · next hn => rw [h] at hn; cases hn
  · next q hq =>
    rw [h] at hq
    cases hq
    rfl

theorem extractFrames_eq_scan (buf : List Nat) :
    extractFrames buf = scanFrames [] buf := by
  induction buf using extractFrames.induct with
  | case1 buf h =>
    rw [extractFrames_none buf h, scanFrames_none buf [] h]
    simp
  | case2 buf p h _ _ ih =>
    rw [extractFrames_some buf p h, scanFrames_some buf [] p h]
    simp [ih]

theorem scanFrames_append (xs : List Nat) :
    ∀ acc ys,
      scanFrames acc (xs ++ ys) =
        ((scanFrames acc xs).1 ++ (scanFrames (scanFrames acc xs).2 ys).1,
          (scanFrames (scanFrames acc xs).2 ys).2) := by
  induction xs with
  | nil => intro acc ys; simp [scanFrames_nil]
  | cons c rest ih =>
    intro acc ys
    by_cases hc : c = 30
    · subst hc
      rw [List.cons_append, scanFrames_cons_sep, scanFrames_cons_sep, ih [] ys]
      simp
    · rw [List.cons_append, scanFrames_cons_ne acc c _ hc,
        scanFrames_cons_ne acc c rest hc]
      exact ih (acc ++ [c]) ys

theorem scanFrames_reconstruct (buf : List Nat) :
    ∀ acc,
      ((scanFrames acc buf).1.map (fun m => m ++ [30])).flatten ++ (scanFrames acc buf).2 =
        acc ++ buf := by
  induction buf with
  | nil => intro acc; simp [scanFrames_nil]
  | cons c rest ih =>
    intro acc
    by_cases hc : c = 30
    · subst hc
      rw [scanFrames_cons_sep]
      simp only [List.map_cons, List.flatten_cons]
      rw [List.append_assoc, ih []]
      simp
    · rw [scanFrames_cons_ne acc c rest hc, ih (acc ++ [c])]
      simp

theorem scanFrames_residual_no_sep (buf : List Nat) :
    ∀ acc, (30 : Nat) ∉ acc → (30 : Nat) ∉ (scanFrames acc buf).2 := by
  induction buf with
  | nil => intro acc h; simpa [scanFrames_nil] using h
  | cons c rest ih =>
    intro acc h
    by_cases hc : c = 30
    · subst hc
      rw [scanFrames_cons_sep]
      exact ih [] (by simp)
    · rw [scanFrames_cons_ne acc c rest hc]
      refine ih (acc ++ [c]) ?_
      intro hmem
      rcases List.mem_append.mp hmem with h1 | h2
      · exact h h1
      · exact hc ((List.mem_singleton.mp h2).symm)

/-- Embedding of the overflow-protected enqueue in
`esp32_websocket_client::handle_data` (lines 635-645): push if below the
bound, otherwise pop the oldest (queue front) and push the newest. -/
def enqueueBounded (q : List (List Nat)) (m : List Nat) : List (List Nat) :=
  if q.length < MAX_MESSAGE_QUEUE_SIZE then q ++ [m]
  else q.tail ++ [m]

/-- Reconnect bookkeeping of hub_connection_impl: the `m_reconnecting`
flag and the `m_reconnect_attempts` counter. -/
structure ReconnectState where
  reconnecting : Bool
  attempts : Int
  deriving DecidableEq, Repr

/-- Embedding of the signalr_client_config fields relevant to the claims,
with the constructor defaults from signalr_client_config.cpp lines 51-73. -/
structure ClientConfig where
  handshakeTimeoutMs : Nat := 15000
  serverTimeoutMs : Nat := 30000
  keepaliveIntervalMs : Nat := 15000
  autoReconnectEnabled : Bool := false
  maxReconnectAttempts : Int := -1
  reconnectDelays : List Nat := [0, 2000, 10000, 30000]
  deriving DecidableEq, Repr

/-- Default-constructed signalr_client_config. -/
def defaultClientConfig : ClientConfig := {}

/-- Combined state of the modelled program: the transport adapter's
mutable fields (esp32_websocket_client), the hub's reconnect state, the
configuration object and the json_helpers global `record_separator`.
Queued messages and the receive buffer are byte lists; the pending
receive callback is an opaque callback identifier. -/
structure SysState where
  sep : Nat
  queue : List (List Nat)
  pending : Option Nat
  recvBuffer : List Nat
  isStopping : Bool
  isConnected : Bool
  config : ClientConfig
  reconn : ReconnectState
  deriving DecidableEq, Repr

/-- State at construction time: empty queue and buffer, no pending
callback, flags down, default config, no reconnect in progress, and the
record separator at its initializer 0x1E. -/
def initialState : SysState :=
  { sep := record_separator
    queue := []
    pending := none
    recvBuffer := []
    isStopping := false
    isConnected := false
    config := defaultClientConfig
    reconn := { reconnecting := false, attempts := 0 } }

/-- Embedding of the `while (separator_pos != npos)` loop of
`esp32_websocket_client::handle_data`, with the enqueue interleaved
exactly as in the source: extract a frame, enqueue it (dropping the
oldest on overflow), continue on the remaining buffer. -/
def hdLoop (q : List (List Nat)) (buf : List Nat) : List (List Nat) × List Nat :=
  match h : findSep buf with
  | none => (q, buf)
  | some p =>
    let rest := buf.drop (p + 1)
    have : rest.length < buf.length := by
      have hp := findSep_lt_length buf p h
      have hpos : 0 < buf.length := Nat.lt_of_le_of_lt (Nat.zero_le p) hp
      simpa [rest] using Nat.sub_lt hpos (Nat.succ_pos p)
    hdLoop (enqueueBounded q (buf.take p)) rest
termination_by buf.length

theorem hdLoop_none (q : List (List Nat)) (buf : List Nat) (h : findSep buf = none) :
    hdLoop q buf = (q, buf) := by
  conv_lhs => unfold hdLoop
  split
  · rfl
  · next p hp => rw [h] at hp; cases hp

theorem hdLoop_some (q : List (List Nat)) (buf : List Nat) (p : Nat)
    (h : findSep buf = some p) :
    hdLoop q buf = hdLoop (enqueueBounded q (buf.take p)) (buf.drop (p + 1)) := by
  conv_lhs => unfold hdLoop
  split
  · next hn => rw [h] at hn; cases hn
  · next q' hq =>
    rw [h] at hq
    cases hq
    rfl

/-- The interleaved loop equals frame extraction followed by a fold of
the bounded enqueue over the extracted frames. -/
theorem hdLoop_eq_extract (buf : List Nat) :
    ∀ q, hdLoop q buf = ((extractFrames buf).1.foldl enqueueBounded q, (extractFrames buf).2) := by
  induction buf using extractFrames.induct with
  | case1 buf h =>
    intro q
    rw [hdLoop_none q buf h, extractFrames_none buf h]
    simp
  | case2 buf p h _ _ ih =>
    intro q
    rw [hdLoop_some q buf p h, extractFrames_some buf p h, ih]
    simp

/-- Embedding of `esp32_websocket_client::handle_data` (lines 601-658):
ignore empty events, append to the receive buffer, then split out and
enqueue every complete 0x1E-terminated frame. -/
def handle_data (s : SysState) (data : List Nat) : SysState :=
  if data.isEmpty then s
  else
    let res := hdLoop s.queue (s.recvBuffer ++ data)
    { s with queue := res.1, recvBuffer := res.2 }

/-- Transport-level errors delivered to a pending receive callback. -/
inductive WsErrKind
  | stopped
  | disconnectedErr
  | runtimeErr (msg : String)
  deriving DecidableEq, Repr

/-- Observable callback invocations of the transport adapter. -/
inductive WsEvent
  | resolvePending (cb : Nat) (payload : List Nat) (err : Option WsErrKind)
  deriving DecidableEq, Repr

/-- Embedding of `esp32_websocket_client::receive` (lines 374-390): the
callback is always stored in the pending slot; the returned flag records
whether a delivery gets scheduled (queue nonempty). -/
def receiveOp (s : SysState) (cb : Nat) : SysState × Bool :=
  ({ s with pending := some cb }, !s.queue.isEmpty)

/-- Embedding of `esp32_websocket_client::stop` (lines 273-314): raise
`m_is_stopping`, resolve a pending receive callback with the
"WebSocket stopped" error, clear the slot, drop the connection.  The
message queue is left untouched. -/
def stopOp (s : SysState) : SysState × List WsEvent :=
  match s.pending with
  | some cb =>
    ({ s with isStopping := true, pending := none, isConnected := false },
      [.resolvePending cb [] (some .stopped)])
  | none => ({ s with isStopping := true, isConnected := false }, [])

/-- Embedding of `esp32_websocket_client::handle_connected`. -/
def handleConnectedOp (s : SysState) : SysState :=
  { s with isConnected := true }

/-- Embedding of `esp32_websocket_client::handle_disconnected` (lines
578-599): clear the connected flag; unless a stop is in progress,
resolve a pending receive callback with the "WebSocket disconnected"
error and clear the slot.  The message queue is left untouched. -/
def handleDisconnectedOp (s : SysState) : SysState × List WsEvent :=
  let s1 := { s with isConnected := false }
  if s1.isStopping then (s1, [])
  else
    match s1.pending with
    | some cb =>
      ({ s1 with pending := none }, [.resolvePending cb [] (some .disconnectedErr)])
    | none => (s1, [])

/-- Embedding of `esp32_websocket_client::handle_error` (lines 660-688):
unless a stop is in progress, resolve a pending receive callback with a
runtime error carrying the message and clear the slot.  The message
queue is left untouched. -/
def handleErrorOp (s : SysState) (msg : String) : SysState × List WsEvent :=
  if s.isStopping then (s, [])
  else
    match s.pending with
    | some cb =>
      ({ s with pending := none }, [.resolvePending cb [] (some (.runtimeErr msg))])
    | none => (s, [])

/-- Embedding of the state reset at the top of
`esp32_websocket_client::start` (lines 210-223): clear `m_is_stopping`,
drain the message queue and clear the pending receive slot. -/
def startOp (s : SysState) : SysState :=
  { s with isStopping := false, queue := [], pending := none }

/-- Outcome of one `try_deliver_message` invocation. -/
inductive DeliverOutcome
  | noPendingCallback
  | emptyQueue
  | spawnedTask (cb : Nat) (msg : List Nat)
  | inlineOnDeliveryTask (cb : Nat) (msg : List Nat)
  | requeuedWithBackoff (waitMs : Nat)
  deriving DecidableEq, Repr

/-- Embedding of `esp32_websocket_client::try_deliver_message` (lines
402-537).  `semAcquired` models whether `xSemaphoreTake` on the
executor-limit semaphore succeeds within its 500 ms timeout; `spawnOk`
models whether `xTaskCreate` succeeds.  With a pending callback and a
queued message: on a spawned task the callback runs there; if the task
cannot be created the callback is executed inline on the current
(delivery) task; if the semaphore is unavailable the message goes back
to the front of the queue, the callback is restored, and the task waits
100 ms. -/
def try_deliver_message (s : SysState) (semAcquired spawnOk : Bool) :
    SysState × DeliverOutcome :=
  match s.pending with
  | none => (s, .noPendingCallback)
  | some cb =>
    match s.queue with
    | [] => (s, .emptyQueue)
    | msg :: rest =>
      let s1 := { s with queue := rest, pending := none }
      if semAcquired then
        if spawnOk then (s1, .spawnedTask cb msg)
        else (s1, .inlineOnDeliveryTask cb msg)
      else
        ({ s1 with queue := msg :: rest, pending := some cb },
          .requeuedWithBackoff 100)

/-- Result of `hub_connection_impl::handle_disconnection` (lines
793-886): the reconnect bookkeeping left behind, whether a reconnect is
started, and whether the user disconnected callback runs. -/
structure DisconnectionResult where
  state : ReconnectState
  startReconnect : Bool
  disconnectedInvoked : Bool
  deriving DecidableEq, Repr

/-- Embedding of the reconnect decision and the two branches of
`hub_connection_impl::handle_disconnection` (lines 817-885).
`hasError` models `exception != nullptr`.  The source condition is
`exception != nullptr && auto_reconnect_enabled && !already_reconnecting
&& (max_attempts == -1 || current_attempts < max_attempts)`; in the
reconnect branch `m_reconnecting` is set and the attempt counter kept;
otherwise both are reset.  `m_disconnected(exception)` runs in both
branches. -/
def handle_disconnection_core (autoReconnect : Bool) (maxAttempts : Int)
    (rs : ReconnectState) (hasError : Bool) : DisconnectionResult :=
  if hasError = true ∧ autoReconnect = true ∧ rs.reconnecting = false ∧
      (maxAttempts = -1 ∨ rs.attempts < maxAttempts) then
    { state := { reconnecting := true, attempts := rs.attempts }
      startReconnect := true
      disconnectedInvoked := true }
  else
    { state := { reconnecting := false, attempts := 0 }
      startReconnect := false
      disconnectedInvoked := true }

/-- Embedding of `hub_connection_impl::get_next_reconnect_delay`
(lines 1091-1111): empty delay list yields 0 ms, an in-range attempt
index selects that entry, and past the end the last entry is used.
The attempt counter is never negative in the source, so it is a `Nat`. -/
def get_next_reconnect_delay (delays : List Nat) (attempt : Nat) : Nat :=
  if delays.isEmpty then 0
  else if h : attempt < delays.length then delays.get ⟨attempt, h⟩
  else delays.getLastD 0

/-- Connection states of the connection core. -/
inductive ConnState
  | disconnectedSt
  | connectingSt
  | connectedSt
  | disconnectingSt
  deriving DecidableEq, Repr

/-- Observable actions of the keepalive machinery. -/
inductive KeepaliveAction
  | sendPing
  | resetServerTimeout
  | resetSendPing
  | stopServerTimeout (ms : Int)
  deriving DecidableEq, Repr

/-- Embedding of the `send_ping` lambda in
`hub_connection_impl::start_keepalive` (lines 675-718): no-op when the
connection handle is gone or the state is not connected, otherwise send
the cached ping frame. -/
def send_ping_actions (alive : Bool) (st : ConnState) : List KeepaliveAction :=
  if alive = false then []
  else if st ≠ ConnState.connectedSt then []
  else [.sendPing]

/-- Embedding of the ping-send completion callback (lines 692-709):
on success reset `m_nextActivationSendPing`, on error only log. -/
def on_ping_send_result (hasException : Bool) : List KeepaliveAction :=
  if hasException then [] else [.resetSendPing]

/-- Embedding of `constexpr auto tick = std::chrono::seconds(1)` in
`timer_internal` (signalr_default_scheduler.cpp lines 387-398): the
period, in milliseconds, of the periodic timer used for keepalive. -/
def timerTickMs : Nat := 1000

/-- Embedding of the head of `hub_connection_impl::start_keepalive`
(lines 720-724): one immediate ping, a server-timeout reset, then the
periodic timer armed at the scheduler tick. -/
def start_keepalive (st : ConnState) : List KeepaliveAction × Nat :=
  (send_ping_actions true st ++ [.resetServerTimeout], timerTickMs)

/-- Embedding of the keepalive timer tick (lines 725-767).  `alive`
models the weak-pointer upgrade.  Returns whether the timer terminates
together with the actions performed. -/
def keepalive_tick (alive : Bool) (st : ConnState)
    (now nextServerTimeout nextSendPing serverTimeoutMs : Int) :
    Bool × List KeepaliveAction :=
  if alive = false then (true, [])
  else if st ≠ ConnState.connectedSt then (true, [])
  else
    let a1 :=
      if now > nextServerTimeout then
        if st = ConnState.connectedSt then [KeepaliveAction.stopServerTimeout serverTimeoutMs]
        else []
      else []
    let a2 := if now > nextSendPing then send_ping_actions true st else []
    (false, a1 ++ a2)

/-- Field view of the negotiate response JSON document: `none` models an
absent member (`is_member` false in the source). -/
structure NegotiateJson where
  error : Option String := none
  negotiateVersion : Option Int := none
  connectionId : Option String := none
  connectionToken : Option String := none
  availableTransports : Option (List (String × List String)) := none
  url : Option String := none
  accessToken : Option String := none
  hasProtocolVersion : Bool := false
  deriving DecidableEq, Repr

/-- The `negotiation_response` structure; default-constructed strings
are empty, as in C++. -/
structure NegotiationResponse where
  error : String := ""
  connectionId : String := ""
  connectionToken : String := ""
  availableTransports : List (String × List String) := []
  url : String := ""
  accessToken : String := ""
  deriving DecidableEq, Repr

/-- Embedding of the response-construction part of `negotiate::negotiate`
(negotiate.cpp lines 73-139), after JSON parsing succeeded with status
200: an `error` member returns early; `negotiateVersion` defaults to 0;
`connectionId` and `connectionToken` are copied when present; when the
server version is ≤ 0 the token is overwritten with the connection id;
`accessToken` is only read when `url` is present; a `ProtocolVersion`
member raises the legacy-server error. -/
def parse_negotiation_response (j : NegotiateJson) :
    Except String NegotiationResponse :=
  match j.error with
  | some e => .ok { error := e }
  | none =>
    let ver : Int :=
      match j.negotiateVersion with
      | some v => v
      | none => 0
    let cid : String :=
      match j.connectionId with
      | some s => s
      | none => ""
    let tok0 : String :=
      match j.connectionToken with
      | some s => s
      | none => ""
    let tok : String := if ver ≤ 0 then cid else tok0
    let transports : List (String × List String) :=
      match j.availableTransports with
      | some ts => ts
      | none => []
    let theUrl : String :=
      match j.url with
      | some u => u
      | none => ""
    let atk : String :=
      match j.url with
      | some _ =>
        match j.accessToken with
        | some a => a
        | none => ""
      | none => ""
    if j.hasProtocolVersion then
      .error "Detected a connection attempt to an ASP.NET SignalR Server."
    else
      .ok { error := ""
            connectionId := cid
            connectionToken := tok
            availableTransports := transports
            url := theUrl
            accessToken := atk }

/-- Embedding of `getBase64Value` (json_helpers.cpp lines 52-77) on its
reachable domain (all call sites mask the argument with `& 0x3F`, so the
`char` cast is the identity); indices of 64 and above throw
`std::out_of_range`, modelled as `none`. -/
def getBase64Value (i : Nat) : Option Char :=
  if i < 26 then some (Char.ofNat (65 + i))
  else if i < 52 then some (Char.ofNat (97 + (i - 26)))
  else if i < 62 then some (Char.ofNat (48 + (i - 52)))
  else if i = 62 then some '+'
  else if i = 63 then some '/'
  else none

/-- Two to the sixty-fourth: the modulus of `size_t` arithmetic on the
reference 64-bit host. -/
def SIZE_T_MOD : Nat := 18446744073709551616

/-- Wrapping `size_t` subtraction `a - b` (for `b ≤ 2^64`). -/
def size_t_sub (a b : Nat) : Nat := (a + SIZE_T_MOD - b) % SIZE_T_MOD

/-- Embedding of the main `while (i <= data.size() - 3)` loop of
`base64Encode` (json_helpers.cpp lines 83-93).  The loop bound is the
wrapping `size_t` value of `data.size() - 3`, exactly as in the source;
each iteration reads `data[i]`, `data[i+1]`, `data[i+2]`, and an
out-of-bounds read (undefined behaviour in C++) yields `none`.  Returns
the accumulated output and the final value of `i`. -/
def b64_loop (data : List Nat) (bound : Nat) (i : Nat) (acc : String) :
    Option (String × Nat) :=
  if _h : i ≤ bound then
    match data.get? i, data.get? (i + 1), data.get? (i + 2) with
    | some x, some y, some z =>
      let b := x * 65536 + y * 256 + z
      match getBase64Value (b / 262144 % 64), getBase64Value (b / 4096 % 64),
          getBase64Value (b / 64 % 64), getBase64Value (b % 64) with
      | some c1, some c2, some c3, some c4 =>
        b64_loop data bound (i + 3) ((((acc.push c1).push c2).push c3).push c4)
      | _, _, _, _ => none
    | _, _, _ => none
  else some (acc, i)
termination_by bound + 1 - i

/-- Embedding of `base64Encode` (json_helpers.cpp lines 79-112): the
3-byte main loop followed by the 2-byte and 1-byte tail cases, with all
`size_t` arithmetic wrapping as in the source.  `none` models undefined
behaviour (an out-of-bounds vector read). -/
def base64Encode (data : List Nat) : Option String :=
  match b64_loop data (size_t_sub data.length 3) 0 "" with
  | none => none
  | some (acc, i) =>
    if size_t_sub data.length i = 2 then
      match data.get? i, data.get? (i + 1) with
      | some x, some y =>
        let b := x * 256 + y
        match getBase64Value (b / 1024 % 64), getBase64Value (b / 16 % 64),
            getBase64Value (b * 4 % 64) with
        | some c1, some c2, some c3 => some ((((acc.push c1).push c2).push c3).push '=')
        | _, _, _ => none
      | _, _ => none
    else if size_t_sub data.length i = 1 then
      match data.get? i with
      | some x =>
        match getBase64Value (x / 4 % 64), getBase64Value (x * 16 % 64) with
        | some c1, some c2 => some ((((acc.push c1).push c2).push '=').push '=')
        | _, _ => none
      | none => none
    else some acc

/-- Embedding of a configuration-setter call: the setters of
signalr_client_config replace the stored values (none of them touches
the json_helpers global). -/
def setConfigOp (s : SysState) (c : ClientConfig) : SysState :=
  { s with config := c }

/-- The reconnect-bookkeeping effect of
`hub_connection_impl::handle_disconnection` on the system state. -/
def hubDisconnectionOp (s : SysState) (hasError : Bool) : SysState :=
  { s with reconn := (handle_disconnection_core s.config.autoReconnectEnabled
      s.config.maxReconnectAttempts s.reconn hasError).state }

/-- Embedding of the counter increment in
`hub_connection_impl::attempt_reconnect` (lines 1029-1030). -/
def attemptReconnectOp (s : SysState) : SysState :=
  { s with reconn := { reconnecting := s.reconn.reconnecting, attempts := s.reconn.attempts + 1 } }

/-- Embedding of the reconnect-state reset on reconnect success, on
give-up, and in `hub_connection_impl::stop`. -/
def reconnectSettledOp (s : SysState) : SysState :=
  { s with reconn := { reconnecting := false, attempts := 0 } }

/-- One step of the modelled program: any of the embedded operations,
with arbitrary inputs and environment outcomes.  Constructors cover the
transport adapter's event handlers and API, the configuration setters
(which replace the configuration object), and the hub's reconnect
bookkeeping. -/
inductive Step : SysState → SysState → Prop
  | receiveStep (s : SysState) (cb : Nat) : Step s (receiveOp s cb).1
  | handleDataStep (s : SysState) (data : List Nat) : Step s (handle_data s data)
  | tryDeliverStep (s : SysState) (semAcquired spawnOk : Bool) :
      Step s (try_deliver_message s semAcquired spawnOk).1
  | stopStep (s : SysState) : Step s (stopOp s).1
  | connectedStep (s : SysState) : Step s (handleConnectedOp s)
  | disconnectedStep (s : SysState) : Step s (handleDisconnectedOp s).1
  | errorStep (s : SysState) (msg : String) : Step s (handleErrorOp s msg).1
  | startStep (s : SysState) : Step s (startOp s)
  | setConfigStep (s : SysState) (c : ClientConfig) : Step s (setConfigOp s c)
  | hubDisconnectionStep (s : SysState) (hasError : Bool) : Step s (hubDisconnectionOp s hasError)
  | attemptReconnectStep (s : SysState) : Step s (attemptReconnectOp s)
  | reconnectSettledStep (s : SysState) : Step s (reconnectSettledOp s)

/-- States the program can reach from construction. -/
def Reachable (s : SysState) : Prop :=
  Relation.ReflTransGen Step initialState s

/-- The bounded enqueue never pushes the length above the bound. -/
theorem enqueueBounded_length_le (q : List (List Nat)) (m : List Nat)
    (h : q.length ≤ MAX_MESSAGE_QUEUE_SIZE) :
    (enqueueBounded q m).length ≤ MAX_MESSAGE_QUEUE_SIZE := by
  unfold enqueueBounded
  unfold MAX_MESSAGE_QUEUE_SIZE at h ⊢
  split
  · next hlt =>
    simp only [List.length_append, List.length_cons, List.length_nil]
    omega
  · next hge =>
    simp only [List.length_append, List.length_tail, List.length_cons, List.length_nil]
    omega

/-- The interleaved handle_data loop preserves the queue bound. -/
theorem hdLoop_length_le (buf : List Nat) :
    ∀ q, q.length ≤ MAX_MESSAGE_QUEUE_SIZE →
      (hdLoop q buf).1.length ≤ MAX_MESSAGE_QUEUE_SIZE := by
  induction buf using extractFrames.induct with
  | case1 buf h =>
    intro q hq
    rw [hdLoop_none q buf h]
    exact hq
  | case2 buf p h _ _ ih =>
    intro q hq
    rw [hdLoop_some q buf p h]
    exact ih _ (enqueueBounded_length_le q (buf.take p) hq)

/-- Every program step preserves the queue bound. -/
theorem step_queue_length_le (s t : SysState) (hst : Step s t)
    (h : s.queue.length ≤ MAX_MESSAGE_QUEUE_SIZE) :
    t.queue.length ≤ MAX_MESSAGE_QUEUE_SIZE := by
  cases hst with
  | receiveStep cb => simpa [receiveOp] using h
  | handleDataStep data =>
    unfold handle_data
    split
    · exact h
    · simpa using hdLoop_length_le (s.recvBuffer ++ data) s.queue h
  | tryDeliverStep semAcquired spawnOk =>
    unfold try_deliver_message
    rcases s.pending with _ | cb
    · simpa using h
    · rcases hq : s.queue with _ | ⟨msg, rest⟩
      · simpa using h
      · have hlen : (msg :: rest).length ≤ MAX_MESSAGE_QUEUE_SIZE := by rw [← hq]; exact h
        by_cases hsem : semAcquired
        · by_cases hspawn : spawnOk
          · simp only [hq, hsem, hspawn, if_true]
            simp at hlen ⊢
            omega
          · simp only [hq, hsem, hspawn, if_true, if_false]
            simp at hlen ⊢
            omega
        · simp only [hq, hsem, if_false]
          simpa using hlen
  | stopStep =>
    unfold stopOp
    rcases s.pending with _ | cb <;> simpa using h
  | connectedStep => simpa [handleConnectedOp] using h
  | disconnectedStep =>
    unfold handleDisconnectedOp
    by_cases hs : s.isStopping
    · simpa [hs] using h
    · rcases s.pending with _ | cb <;> simpa [hs] using h
  | errorStep msg =>
    unfold handleErrorOp
    by_cases hs : s.isStopping
    · simpa [hs] using h
    · rcases s.pending with _ | cb <;> simpa [hs] using h
  | startStep => simp [startOp, MAX_MESSAGE_QUEUE_SIZE]
  | setConfigStep c => simpa [setConfigOp] using h
  | hubDisconnectionStep hasError => simpa [hubDisconnectionOp] using h
  | attemptReconnectStep => simpa [attemptReconnectOp] using h
  | reconnectSettledStep => simpa [reconnectSettledOp] using h

/-- Every program step leaves the record separator unchanged. -/
theorem step_sep_eq (s t : SysState) (hst : Step s t) : t.sep = s.sep := by
  cases hst with
  | receiveStep cb => simp [receiveOp]
  | handleDataStep data =>
    unfold handle_data
    split
    · rfl
    · rfl
  | tryDeliverStep semAcquired spawnOk =>
    unfold try_deliver_message
    rcases s.pending with _ | cb
    · rfl
    · rcases s.queue with _ | ⟨msg, rest⟩
      · rfl
      · by_cases hsem : semAcquired
        · by_cases hspawn : spawnOk <;> simp [hsem, hspawn]
        · simp [hsem]
  | stopStep =>
    unfold stopOp
    rcases s.pending with _ | cb <;> rfl
  | connectedStep => rfl
  | disconnectedStep =>
    unfold handleDisconnectedOp
    by_cases hs : s.isStopping
    · simp [hs]
    · rcases s.pending with _ | cb <;> simp [hs]
  | errorStep msg =>
    unfold handleErrorOp
    by_cases hs : s.isStopping
    · simp [hs]
    · rcases s.pending with _ | cb <;> simp [hs]
  | startStep => rfl
  | setConfigStep c => rfl
  | hubDisconnectionStep hasError => rfl
  | attemptReconnectStep => rfl
  | reconnectSettledStep => rfl

/-- Reachability invariant: the record separator is 0x1E in every
reachable state. -/
theorem reachable_sep_eq (s : SysState) (h : Reachable s) : s.sep = 30 := by
  induction h with
  | refl => rfl
  | tail _ hstep ih => rw [step_sep_eq _ _ hstep, ih]

/-- Reachability invariant: the inbound queue never exceeds the bound. -/
theorem reachable_queue_length_le (s : SysState) (h : Reachable s) :
    s.queue.length ≤ MAX_MESSAGE_QUEUE_SIZE := by
  induction h with
  | refl => simp [initialState, MAX_MESSAGE_QUEUE_SIZE]
  | tail _ hstep ih => exact step_queue_length_le _ _ hstep ih

/-- Scanning a separator-free prefix only extends the accumulator. -/
theorem scanFrames_prefix_no_sep (pre : List Nat) :
    ∀ acc ys, (30 : Nat) ∉ pre →
      scanFrames acc (pre ++ ys) = scanFrames (acc ++ pre) ys := by
  induction pre with
  | nil => intro acc ys _; simp
  | cons c rest ih =>
    intro acc ys hpre
    have hc : c ≠ 30 := by
      intro hcc
      exact hpre (by rw [hcc]; exact List.mem_cons_self 30 rest)
    have hrest : (30 : Nat) ∉ rest := fun hr => hpre (List.mem_cons_of_mem c hr)
    rw [List.cons_append, scanFrames_cons_ne acc c _ hc, ih (acc ++ [c]) ys hrest]
    simp

/-- Frame extraction distributes over concatenation: the residual buffer
of the first part is prepended to the second part. -/
theorem extractFrames_append (xs ys : List Nat) :
    extractFrames (xs ++ ys) =
      ((extractFrames xs).1 ++ (extractFrames ((extractFrames xs).2 ++ ys)).1,
        (extractFrames ((extractFrames xs).2 ++ ys)).2) := by
  have hres : (30 : Nat) ∉ (scanFrames [] xs).2 :=
    scanFrames_residual_no_sep xs [] (by simp)
  rw [extractFrames_eq_scan, extractFrames_eq_scan, extractFrames_eq_scan,
    scanFrames_append xs [] ys,
    scanFrames_prefix_no_sep (scanFrames [] xs).2 [] ys hres]
  simp

/-- The interleaved loop composes the same way. -/
theorem hdLoop_append (q : List (List Nat)) (xs ys : List Nat) :
    hdLoop (hdLoop q xs).1 ((hdLoop q xs).2 ++ ys) = hdLoop q (xs ++ ys) := by
  rw [hdLoop_eq_extract xs q, hdLoop_eq_extract (xs ++ ys) q]
  simp only
  rw [hdLoop_eq_extract ((extractFrames xs).2 ++ ys) ((extractFrames xs).1.foldl enqueueBounded q),
    extractFrames_append xs ys]
  simp [List.foldl_append]

/-- handle_data over two consecutive data events equals handle_data over
the concatenated event. -/
theorem handle_data_append (s : SysState) (d1 d2 : List Nat) :
    handle_data (handle_data s d1) d2 = handle_data s (d1 ++ d2) := by
  rcases h1 : d1 with _ | ⟨a, as⟩
  · simp [handle_data]
  · rcases h2 : d2 with _ | ⟨b, bs⟩
    · simp [handle_data]
    · have hne1 : ((a :: as : List Nat).isEmpty) = false := rfl
      have hne2 : ((b :: bs : List Nat).isEmpty) = false := rfl
      have hne12 : (((a :: as) ++ (b :: bs) : List Nat).isEmpty) = false := rfl
      simp only [handle_data, hne1, hne2, hne12, Bool.false_eq_true, if_false]
      have := hdLoop_append s.queue (s.recvBuffer ++ (a :: as)) (b :: bs)
      rw [List.append_assoc] at this
      exact congrArg (fun r => { s with queue := r.1, recvBuffer := r.2 }) this

/-- Claim C2: the inbound message queue never holds more than the
configured bound of complete messages (default 20); when a complete
frame arrives while the queue is already at the bound, the oldest queued
message is popped and the new message pushed, so exactly one is dropped
per one added and the size never exceeds the bound. -/
theorem c2_queue_bound_invariant :
    MAX_MESSAGE_QUEUE_SIZE = 20 ∧
    (∀ s : SysState, Reachable s → s.queue.length ≤ MAX_MESSAGE_QUEUE_SIZE) ∧
    (∀ (q : List (List Nat)) (m : List Nat), q.length = MAX_MESSAGE_QUEUE_SIZE →
      enqueueBounded q m = q.tail ++ [m] ∧
      (enqueueBounded q m).length = MAX_MESSAGE_QUEUE_SIZE) := by
  refine ⟨rfl, reachable_queue_length_le, ?_⟩
  intro q m hq
  have hnot : ¬ q.length < MAX_MESSAGE_QUEUE_SIZE := by omega
  constructor
  · unfold enqueueBounded
    rw [if_neg hnot]
  · unfold enqueueBounded
    rw [if_neg hnot]
    simp only [List.length_append, List.length_tail, List.length_cons, List.length_nil]
    unfold MAX_MESSAGE_QUEUE_SIZE at hq ⊢
    omega

/-- Witness for C2: a concrete reachable state satisfies the bound, and
a concrete full queue drops exactly its oldest entry. -/
theorem c2_queue_bound_invariant_witness :
    (handle_data initialState [97, 30]).queue.length ≤ MAX_MESSAGE_QUEUE_SIZE ∧
    enqueueBounded (List.replicate 20 [1]) [2] =
      (List.replicate 20 ([1] : List Nat)).tail ++ [[2]] := by
  constructor
  · exact c2_queue_bound_invariant.2.1 _
      (Relation.ReflTransGen.single (Step.handleDataStep initialState [97, 30]))
  · exact (c2_queue_bound_invariant.2.2 (List.replicate 20 [1]) [2] (by decide)).1

/-- Claim C5: for every byte sequence delivered by the socket, feeding
it to the data handler split arbitrarily across consecutive data events
enqueues exactly the same sequence of messages (the 0x1E-separated
frames with the separator stripped) as feeding it in one event, and the
bytes after the last separator stay in the reassembly buffer (the
residual buffer is separator-free and reassembling frames and residual
restores the input). -/
theorem c5_split_invariance :
    (∀ (s : SysState) (chunks : List (List Nat)),
      chunks.foldl handle_data s = handle_data s chunks.flatten) ∧
    (∀ buf : List Nat,
      (extractFrames buf).2.count 30 = 0 ∧
      ((extractFrames buf).1.map (fun m => m ++ [30])).flatten ++ (extractFrames buf).2 = buf) := by
  constructor
  · intro s chunks
    induction chunks generalizing s with
    | nil => simp [handle_data]
    | cons c cs ih =>
      rw [List.foldl_cons, ih (handle_data s c), handle_data_append, List.flatten_cons]
  · intro buf
    constructor
    · rw [extractFrames_eq_scan]
      exact List.count_eq_zero.mpr (scanFrames_residual_no_sep buf [] (by simp))
    · rw [extractFrames_eq_scan]
      simpa using scanFrames_reconstruct buf []

/-- Claim C9: the record separator used for framing is the single byte
0x1E and no operation of the modelled program ever changes it: it is not
part of the configuration, and every reachable state carries the
initializer value. -/
theorem c9_record_separator_constant :
    record_separator = 30 ∧
    ∀ s : SysState, Reachable s → s.sep = record_separator := by
  refine ⟨rfl, ?_⟩
  intro s h
  rw [reachable_sep_eq s h]
  rfl

/-- Witness for C9: a concrete reachable state, obtained by receiving
data, reconfiguring, and stopping, still carries the separator 0x1E. -/
theorem c9_record_separator_constant_witness :
    Reachable (stopOp (setConfigOp (handle_data initialState [97, 30])
      { defaultClientConfig with autoReconnectEnabled := true })).1 ∧
    (stopOp (setConfigOp (handle_data initialState [97, 30])
      { defaultClientConfig with autoReconnectEnabled := true })).1.sep = record_separator := by
  have h1 : Reachable (handle_data initialState [97, 30]) :=
    Relation.ReflTransGen.single (Step.handleDataStep initialState [97, 30])
  have h2 : Reachable (setConfigOp (handle_data initialState [97, 30])
      { defaultClientConfig with autoReconnectEnabled := true }) :=
    Relation.ReflTransGen.tail h1 (Step.setConfigStep _ _)
  have h3 : Reachable (stopOp (setConfigOp (handle_data initialState [97, 30])
      { defaultClientConfig with autoReconnectEnabled := true })).1 :=
    Relation.ReflTransGen.tail h2 (Step.stopStep _)
  exact ⟨h3, c9_record_separator_constant.2 _ h3⟩

/-- Reachable concrete state with one queued message and a pending
receive callback: callback 1 installed via receive, then the frame
"a" (byte 97) terminated by 0x1E arrives. -/
def deliveryCexState : SysState := handle_data (receiveOp initialState 1).1 [97, 30]

theorem deliveryCexState_eq :
    deliveryCexState = { initialState with pending := some 1, queue := [[97]] } := by
  simp [deliveryCexState, receiveOp, handle_data, hdLoop, findSep, enqueueBounded,
    MAX_MESSAGE_QUEUE_SIZE, initialState]

/-- Claim C1 counterexample: at a state with a queued message and a
pending callback, when the executor-limit semaphore is acquired but the
executor task cannot be spawned (`xTaskCreate` fails), the code
executes the user callback inline on the delivery task and does NOT
re-enqueue the message: the claim that the callback is never invoked
inline is false. -/
theorem c1_inline_dispatch_counterexample :
    deliveryCexState.pending = some 1 ∧
    deliveryCexState.queue = [[97]] ∧
    (try_deliver_message deliveryCexState true false).2 =
      DeliverOutcome.inlineOnDeliveryTask 1 [97] ∧
    (try_deliver_message deliveryCexState true false).1.queue = [] ∧
    (try_deliver_message deliveryCexState true false).1.pending = none := by
  refine ⟨?_, ?_, ?_, ?_, ?_⟩ <;> rw [deliveryCexState_eq] <;> rfl

/-- Claim C1 as amended: with a pending callback and a queued message,
(a) if the executor-limit semaphore cannot be acquired within its 500 ms
timeout, the message is re-enqueued at the head, the callback restored,
and the task backs off 100 ms (the state is exactly restored); (b) if
the semaphore is acquired and the task spawns, the callback is
dispatched on the fresh executor task; (c) if the semaphore is acquired
but task creation fails, the callback is executed inline on the
delivery task. -/
theorem c1_requeue_or_inline (s : SysState) (cb : Nat) (msg : List Nat)
    (rest : List (List Nat)) (hp : s.pending = some cb) (hq : s.queue = msg :: rest) :
    (∀ spawnOk, try_deliver_message s false spawnOk =
      (s, DeliverOutcome.requeuedWithBackoff 100)) ∧
    try_deliver_message s true true =
      ({ s with queue := rest, pending := none }, DeliverOutcome.spawnedTask cb msg) ∧
    try_deliver_message s true false =
      ({ s with queue := rest, pending := none },
        DeliverOutcome.inlineOnDeliveryTask cb msg) := by
  obtain ⟨sp, qu, pe, rb, st, ic, cf, rc⟩ := s
  simp only at hp hq
  subst hp
  subst hq
  exact ⟨fun spawnOk => rfl, rfl, rfl⟩

/-- Witness for the amended C1 at the concrete reachable state. -/
theorem c1_requeue_or_inline_witness :
    try_deliver_message deliveryCexState false true =
      (deliveryCexState, DeliverOutcome.requeuedWithBackoff 100) ∧
    try_deliver_message deliveryCexState true true =
      ({ deliveryCexState with queue := [], pending := none },
        DeliverOutcome.spawnedTask 1 [97]) := by
  have hp : deliveryCexState.pending = some 1 := by rw [deliveryCexState_eq]
  have hq : deliveryCexState.queue = [[97]] := by rw [deliveryCexState_eq]
  have h := c1_requeue_or_inline deliveryCexState 1 [97] [] hp hq
  exact ⟨h.1 true, h.2.1⟩

/-- Reachable concrete state with two queued messages and a pending
receive callback 7, a stop not yet in progress. -/
def stopCexState : SysState := handle_data (receiveOp initialState 7).1 [97, 30, 98, 30]

theorem stopCexState_eq :
    stopCexState = { initialState with pending := some 7, queue := [[97], [98]] } := by
  simp [stopCexState, receiveOp, handle_data, hdLoop, findSep, enqueueBounded,
    MAX_MESSAGE_QUEUE_SIZE, initialState]

/-- Claim C6 counterexample: stopping the transport at a state with
queued messages resolves the pending callback with the stopped error and
clears the slot, but the inbound message queue is NOT drained: both
messages remain queued after stop. -/
theorem c6_queue_not_drained_counterexample :
    stopCexState.pending = some 7 ∧
    stopCexState.queue = [[97], [98]] ∧
    (stopOp stopCexState).2 = [WsEvent.resolvePending 7 [] (some WsErrKind.stopped)] ∧
    (stopOp stopCexState).1.pending = none ∧
    (stopOp stopCexState).1.queue.isEmpty = false := by
  refine ⟨?_, ?_, ?_, ?_, ?_⟩ <;> rw [stopCexState_eq] <;> rfl

/-- Claim C6 as amended: whenever the transport is stopped, or (while no
stop is in progress) the socket disconnects or an error event occurs,
an installed pending-receive callback is resolved exactly once with the
appropriate error and the slot is cleared; but none of these events
drains the inbound message queue — it is left untouched and only the
next transport start clears it. -/
theorem c6_pending_receive_resolution (s : SysState) (cb : Nat) (msg : String)
    (hp : s.pending = some cb) :
    ((stopOp s).2 = [WsEvent.resolvePending cb [] (some WsErrKind.stopped)] ∧
      (stopOp s).1.pending = none ∧
      (stopOp s).1.queue = s.queue) ∧
    (s.isStopping = false →
      (handleDisconnectedOp s).2 =
        [WsEvent.resolvePending cb [] (some WsErrKind.disconnectedErr)] ∧
      (handleDisconnectedOp s).1.pending = none ∧
      (handleDisconnectedOp s).1.queue = s.queue) ∧
    (s.isStopping = false →
      (handleErrorOp s msg).2 =
        [WsEvent.resolvePending cb [] (some (WsErrKind.runtimeErr msg))] ∧
      (handleErrorOp s msg).1.pending = none ∧
      (handleErrorOp s msg).1.queue = s.queue) ∧
    ((startOp s).queue = [] ∧ (startOp s).pending = none) := by
  obtain ⟨sp, qu, pe, rb, st, ic, cf, rc⟩ := s
  simp only at hp
  subst hp
  refine ⟨⟨rfl, rfl, rfl⟩, ?_, ?_, rfl, rfl⟩
  · intro hst
    simp only at hst
    subst hst
    exact ⟨rfl, rfl, rfl⟩
  · intro hst
    simp only at hst
    subst hst
    exact ⟨rfl, rfl, rfl⟩

/-- Witness for the amended C6 at the concrete reachable state. -/
theorem c6_pending_receive_resolution_witness :
    (stopOp stopCexState).1.queue = stopCexState.queue ∧
    (handleErrorOp stopCexState "boom").2 =
      [WsEvent.resolvePending 7 [] (some (WsErrKind.runtimeErr "boom"))] ∧
    (startOp stopCexState).queue = [] := by
  have hp : stopCexState.pending = some 7 := by rw [stopCexState_eq]
  have hst : stopCexState.isStopping = false := by rw [stopCexState_eq]; rfl
  have h := c6_pending_receive_resolution stopCexState 7 "boom" hp
  exact ⟨h.1.2.2, (h.2.2.1 hst).1, h.2.2.2.1⟩

/-- Claim C3 counterexample: with automatic reconnection enabled, a real
error, and unlimited attempts (max = -1, so the attempt bound holds),
the code still refuses to reconnect when the `m_reconnecting` flag is
already set — a condition absent from the claim's if-and-only-if.  The
same inputs with the flag clear do reconnect. -/
theorem c3_already_reconnecting_counterexample :
    (handle_disconnection_core true (-1)
      { reconnecting := true, attempts := 0 } true).startReconnect = false ∧
    (handle_disconnection_core true (-1)
      { reconnecting := false, attempts := 0 } true).startReconnect = true := by
  constructor <;> decide

/-- Claim C3 as amended: after a disconnection, a reconnect attempt is
started if and only if the disconnection carried a real error, automatic
reconnection is enabled, the connection is NOT already in a reconnecting
state, and the attempt counter is below max_reconnect_attempts (or that
is -1); the user disconnected callback is invoked in every case, and
when no reconnect is started the reconnecting flag is cleared and the
attempt counter reset. -/
theorem c3_reconnect_decision (auto : Bool) (maxAttempts : Int)
    (rs : ReconnectState) (hasError : Bool) :
    ((handle_disconnection_core auto maxAttempts rs hasError).startReconnect = true ↔
      (hasError = true ∧ auto = true ∧ rs.reconnecting = false ∧
        (maxAttempts = -1 ∨ rs.attempts < maxAttempts))) ∧
    (handle_disconnection_core auto maxAttempts rs hasError).disconnectedInvoked = true ∧
    ((handle_disconnection_core auto maxAttempts rs hasError).startReconnect = false →
      (handle_disconnection_core auto maxAttempts rs hasError).state =
        { reconnecting := false, attempts := 0 }) ∧
    ((handle_disconnection_core auto maxAttempts rs hasError).startReconnect = true →
      (handle_disconnection_core auto maxAttempts rs hasError).state =
        { reconnecting := true, attempts := rs.attempts }) := by
  unfold handle_disconnection_core
  split
  · next hcond => simp [hcond]
  · next hcond => simp [hcond]

/-- Witness for the amended C3: auto-reconnect disabled means no
reconnect, the callback still runs, and the state is reset. -/
theorem c3_reconnect_decision_witness :
    (handle_disconnection_core false 5
      { reconnecting := false, attempts := 0 } true).disconnectedInvoked = true ∧
    (handle_disconnection_core false 5
      { reconnecting := false, attempts := 0 } true).state =
      { reconnecting := false, attempts := 0 } := by
  have h := c3_reconnect_decision false 5 { reconnecting := false, attempts := 0 } true
  exact ⟨h.2.1, h.2.2.1 (by decide)⟩

/-- Claim C4: the backoff delay equals the delays-sequence element at
the current attempt index when in range, otherwise the last element
(clamped); the default sequence is 0 s, 2 s, 10 s, 30 s; an empty
sequence yields 0 ms. -/
theorem c4_backoff_delay_lookup :
    defaultClientConfig.reconnectDelays = [0, 2000, 10000, 30000] ∧
    (∀ attempt, get_next_reconnect_delay [] attempt = 0) ∧
    (∀ (delays : List Nat) (attempt : Nat) (h : attempt < delays.length),
      get_next_reconnect_delay delays attempt = delays.get ⟨attempt, h⟩) ∧
    (∀ (delays : List Nat) (attempt : Nat), delays.isEmpty = false →
      delays.length ≤ attempt →
      get_next_reconnect_delay delays attempt = delays.getLastD 0) := by
  refine ⟨rfl, fun attempt => rfl, ?_, ?_⟩
  · intro delays attempt h
    have hne : delays.isEmpty = false := by
      cases delays with
      | nil => simp at h
      | cons a as => rfl
    unfold get_next_reconnect_delay
    rw [hne]
    simp [h]
  · intro delays attempt hne hge
    unfold get_next_reconnect_delay
    rw [hne]
    simp [Nat.not_lt.mpr hge]

/-- Witness for C4 at the default delay sequence: in-range index 1 gives
2 s and out-of-range index 9 clamps to 30 s. -/
theorem c4_backoff_delay_lookup_witness :
    get_next_reconnect_delay [0, 2000, 10000, 30000] 1 = 2000 ∧
    get_next_reconnect_delay [0, 2000, 10000, 30000] 9 = 30000 := by
  constructor
  · exact (c4_backoff_delay_lookup.2.2.1 [0, 2000, 10000, 30000] 1 (by decide)).trans rfl
  · exact (c4_backoff_delay_lookup.2.2.2 [0, 2000, 10000, 30000] 9 rfl (by decide)).trans rfl

/-- Claim C7: after handshake success the hub sends one ping, resets the
server-timeout deadline and arms a periodic 1 s timer; on every tick, a
non-connected state terminates the timer; a current time past the
server-timeout deadline stops the connection with the server-timeout
error carrying the configured milliseconds; a current time past the
ping deadline sends the cached ping, and a successful ping send resets
the ping deadline. -/
theorem c7_keepalive_behavior :
    timerTickMs = 1000 ∧
    start_keepalive ConnState.connectedSt =
      ([KeepaliveAction.sendPing, KeepaliveAction.resetServerTimeout], 1000) ∧
    (∀ (st : ConnState) (now nst nsp stm : Int), st ≠ ConnState.connectedSt →
      keepalive_tick true st now nst nsp stm = (true, [])) ∧
    (∀ (now nst nsp stm : Int), now > nst →
      (keepalive_tick true ConnState.connectedSt now nst nsp stm).1 = false ∧
      KeepaliveAction.stopServerTimeout stm ∈
        (keepalive_tick true ConnState.connectedSt now nst nsp stm).2) ∧
    (∀ (now nst nsp stm : Int), now > nsp →
      KeepaliveAction.sendPing ∈
        (keepalive_tick true ConnState.connectedSt now nst nsp stm).2) ∧
    on_ping_send_result false = [KeepaliveAction.resetSendPing] := by
  refine ⟨rfl, rfl, ?_, ?_, ?_, rfl⟩
  · intro st now nst nsp stm hst
    unfold keepalive_tick
    simp [hst]
  · intro now nst nsp stm hnow
    unfold keepalive_tick
    simp [hnow]
  · intro now nst nsp stm hnow
    unfold keepalive_tick send_ping_actions
    simp [hnow]

/-- Witness for C7 at concrete times: at time 100 with both deadlines at
50 and a 30 s configured timeout, the tick keeps running, stops the
connection with the 30000 ms timeout error and sends a ping; a
disconnected state terminates the timer. -/
theorem c7_keepalive_behavior_witness :
    (keepalive_tick true ConnState.connectedSt 100 50 50 30000).1 = false ∧
    KeepaliveAction.stopServerTimeout 30000 ∈
      (keepalive_tick true ConnState.connectedSt 100 50 50 30000).2 ∧
    KeepaliveAction.sendPing ∈
      (keepalive_tick true ConnState.connectedSt 100 50 50 30000).2 ∧
    keepalive_tick true ConnState.disconnectedSt 100 50 50 30000 = (true, []) := by
  refine ⟨?_, ?_, ?_, ?_⟩
  · exact (c7_keepalive_behavior.2.2.2.1 100 50 50 30000 (by decide)).1
  · exact (c7_keepalive_behavior.2.2.2.1 100 50 50 30000 (by decide)).2
  · exact c7_keepalive_behavior.2.2.2.2.1 100 50 50 30000 (by decide)
  · exact c7_keepalive_behavior.2.2.1 ConnState.disconnectedSt 100 50 50 30000 (by decide)

/-- Negotiate response with connectionId, negotiateVersion 1, and no
connectionToken member. -/
def negotiateCexJson : NegotiateJson :=
  { error := none
    negotiateVersion := some 1
    connectionId := some "c1"
    connectionToken := none
    availableTransports := none
    url := none
    accessToken := none
    hasProtocolVersion := false }

/-- Claim C8 counterexample: a successful negotiate response carrying
negotiateVersion 1 and connectionId "c1" but no connectionToken member
yields an EMPTY connection token, not the connectionId: the claimed
fallback on an absent connectionToken does not happen when the server
version is positive. -/
theorem c8_token_absent_counterexample :
    (parse_negotiation_response negotiateCexJson).toOption.map
      NegotiationResponse.connectionToken = some "" ∧
    (parse_negotiation_response negotiateCexJson).toOption.map
      NegotiationResponse.connectionId = some "c1" ∧
    (("" : String) == "c1") = false := by
  refine ⟨rfl, rfl, by decide⟩

/-- Claim C8 as amended: for a successful (no error member, no legacy
ProtocolVersion member) negotiate response, the connection token is the
connectionId exactly when the server's negotiateVersion is ≤ 0 or
absent (even overriding a present connectionToken member); otherwise it
is the connectionToken member's value, which is the empty string when
that member is absent. -/
theorem c8_token_fallback (j : NegotiateJson) (he : j.error = none)
    (hp : j.hasProtocolVersion = false) :
    (parse_negotiation_response j).toOption.map NegotiationResponse.connectionToken =
      some (if j.negotiateVersion.getD 0 ≤ 0 then j.connectionId.getD ""
        else j.connectionToken.getD "") := by
  obtain ⟨er, nv, cid, ct, avt, u, atk, hpv⟩ := j
  simp only at he hp
  subst he
  subst hp
  cases nv <;> cases cid <;> cases ct <;> rfl

/-- Witness for the amended C8: negotiateVersion 0 overrides a present
connectionToken "tok" with the connectionId "abc". -/
theorem c8_token_fallback_witness :
    (parse_negotiation_response
      { error := none
        negotiateVersion := some 0
        connectionId := some "abc"
        connectionToken := some "tok"
        availableTransports := none
        url := none
        accessToken := none
        hasProtocolVersion := false }).toOption.map
      NegotiationResponse.connectionToken = some "abc" := by
  exact (c8_token_fallback
    { error := none
      negotiateVersion := some 0
      connectionId := some "abc"
      connectionToken := some "tok"
      availableTransports := none
      url := none
      accessToken := none
      hasProtocolVersion := false } rfl rfl).trans rfl

theorem b64_loop_stop (data : List Nat) (bound i : Nat) (acc : String)
    (h : ¬ i ≤ bound) : b64_loop data bound i acc = some (acc, i) := by
  conv_lhs => unfold b64_loop
  rw [dif_neg h]

theorem b64_loop_oob (data : List Nat) (bound i : Nat) (acc : String)
    (hle : i ≤ bound) (h : data.get? (i + 2) = none) :
    b64_loop data bound i acc = none := by
  conv_lhs => unfold b64_loop
  rw [dif_pos hle]
  rcases h0 : data.get? i with _ | x
  · rfl
  · rcases h1 : data.get? (i + 1) with _ | y
    · rfl
    · rw [h]

/-- Claim C10 (code bug): `base64Encode` is NOT total and memory-safe.
For inputs of length 0, 1 and 2 the unsigned loop bound
`data.size() - 3` wraps around to nearly 2^64, so the first loop
iteration reads `data[0]`, `data[1]`, `data[2]` out of bounds
(undefined behaviour, modelled as `none`).  From length 3 on the
function is well behaved and produces the standard padded base64
encoding, e.g. "TWFu" for the bytes of "Man" and "TWFuTQ==" for those
of "ManM". -/
theorem c10_base64_out_of_bounds :
    base64Encode [] = none ∧
    base64Encode [77] = none ∧
    base64Encode [77, 97] = none ∧
    base64Encode [77, 97, 110] = some "TWFu" ∧
    base64Encode [77, 97, 110, 77] = some "TWFuTQ==" := by
  have h3 : b64_loop [77, 97, 110] (size_t_sub ([77, 97, 110] : List Nat).length 3) 0 "" =
      some ("TWFu", 3) := by
    conv_lhs => unfold b64_loop
    norm_num [getBase64Value, size_t_sub, SIZE_T_MOD]
    rw [b64_loop_stop]
    · decide
    · decide
  have h4 : b64_loop [77, 97, 110, 77]
      (size_t_sub ([77, 97, 110, 77] : List Nat).length 3) 0 "" = some ("TWFu", 3) := by
    conv_lhs => unfold b64_loop
    norm_num [getBase64Value, size_t_sub, SIZE_T_MOD]
    rw [b64_loop_stop]
    · decide
    · decide
  refine ⟨?_, ?_, ?_, ?_, ?_⟩
  · unfold base64Encode
    rw [b64_loop_oob ([] : List Nat) (size_t_sub ([] : List Nat).length 3) 0 ""
      (by decide) rfl]
  · unfold base64Encode
    rw [b64_loop_oob ([77] : List Nat) (size_t_sub ([77] : List Nat).length 3) 0 ""
      (by decide) rfl]
  · unfold base64Encode
    rw [b64_loop_oob ([77, 97] : List Nat) (size_t_sub ([77, 97] : List Nat).length 3) 0 ""
      (by decide) rfl]
  · unfold base64Encode
    rw [h3]
    rfl
  · unfold base64Encode
    rw [h4]
    rfl
